import Mathlib

/-!
# Session-backed credential gateway (server/server.js)

A shallow embedding of the Express handlers and of the Passport local strategy
defined in server/server.js, together with the properties of registration,
credential verification, session serialisation, logout and the points endpoint.

External collaborators (the Supabase client, bcrypt) are interface records whose
calls may succeed, report an error object, or throw; every handler returns the
responses it sent, the repository state it left behind and the sequence of
external calls it made.
-/

namespace PernAuth

/-! ## Data model -/

/-- Error values: rejected promises, Supabase error objects and callback errors. -/
abbrev Err := String

/-- Row of the users table, the object built at server.js line 75. -/
structure UserRecord where
  username : String
  password : String
deriving DecidableEq, Repr

/-- Row of the points table (column name and value pairs); never inspected by the server. -/
abbrev ResourceItem := List (String × String)

/-- Result of an awaited Supabase query: the await either throws or yields the pair
of fields data and error that the handlers destructure. -/
inductive Query (α : Type) where
  | threw (e : Err)
  | returned (data : Option α) (error : Option Err)
deriving DecidableEq, Repr

/-- The three Supabase calls made by server.js, over a repository state. The two
select calls are reads; the insert call may change the state. -/
structure Repository (σ : Type) where
  selectUser : σ → String → Query UserRecord
  insertUser : σ → UserRecord → Query UserRecord × σ
  selectPoints : σ → Query (List ResourceItem)

/-- The two bcrypt calls made by server.js; each reports through its callback
either an error or a value. -/
structure Hasher where
  hash : String → Nat → Except Err String
  compare : String → String → Except Err Bool

/-- External calls, in the order a handler issues them. -/
inductive Effect where
  | selectUser (username : String)
  | hash (plaintext : String) (rounds : Nat)
  | compare (plaintext : String) (stored : String)
  | insertUser (row : UserRecord)
  | selectPoints
deriving DecidableEq, Repr

/-- Responses a handler can produce. -/
inductive Response where
  | json (status : Nat) (key : String) (value : String)
  | jsonData (status : Nat) (data : Option (List ResourceItem))
  | redirect (location : String)
  | send (text : String)
  | failed (e : Err)
deriving DecidableEq, Repr

/-- What one handler invocation did: its result, the repository state afterwards
and the external calls it made. -/
structure Run (σ : Type) (α : Type) where
  result : α
  repo : σ
  effects : List Effect

/-- Session state kept for one user agent: the blob stored by the login, if any. -/
structure Session where
  user : Option UserRecord
deriving DecidableEq, Repr

/-- The three ways the verify function calls its callback: cb(err), cb(null, false)
and cb(null, user). -/
inductive Verdict where
  | error (e : Err)
  | rejected
  | authenticated (user : UserRecord)
deriving DecidableEq, Repr

/-! ## Constants and fixed response bodies -/

/-- Work factor, server.js line 13. -/
def saltRounds : Nat := 10

/-- Option failureRedirect of the login route, server.js line 47. -/
def failureRedirect : String := "/login"

/-- Body sent on every 500 path of server.js. -/
def internalServerError : Response := .json 500 "error" "Internal server error"

/-- Body sent at server.js line 64. -/
def userAlreadyExists : Response := .json 400 "error" "User already exists"

/-- Body sent at server.js line 83. -/
def userRegistered : Response := .json 200 "message" "User registered successfully"

/-- Body sent at server.js line 93. -/
def loggedOut : Response := .json 200 "message" "Logged out successfully"

/-! ## The local strategy (server.js lines 112 to 150) -/

/-- The verify function of the local strategy, server.js lines 113 to 141. -/
def verify {σ : Type} (R : Repository σ) (H : Hasher) (username password : String) (s : σ) :
    Run σ Verdict :=
  match R.selectUser s username with
  | .threw err => ⟨.error err, s, [.selectUser username]⟩
  | .returned user error =>
    match error, user with
    | some _, _ => ⟨.rejected, s, [.selectUser username]⟩
    | none, none => ⟨.rejected, s, [.selectUser username]⟩
    | none, some u =>
      match H.compare password u.password with
      | .error err => ⟨.error err, s, [.selectUser username, .compare password u.password]⟩
      | .ok true => ⟨.authenticated u, s, [.selectUser username, .compare password u.password]⟩
      | .ok false => ⟨.rejected, s, [.selectUser username, .compare password u.password]⟩

/-- Session serialisation, server.js lines 144 to 146: cb(null, user). -/
def serializeUser (user : UserRecord) : Except Err UserRecord := .ok user

/-- Session deserialisation, server.js lines 148 to 150: cb(null, user). -/
def deserializeUser (user : UserRecord) : Except Err UserRecord := .ok user

/-! ## Route handlers -/

/-- What the Passport middleware of POST /login does with the callback of verify: an
error is handed to the framework, a false user redirects to failureRedirect, and a
user is serialised into the session before the route handler of server.js lines 48
to 50 redirects to the root. -/
def verified {σ : Type} (v : Run σ Verdict) (session : Session) :
    Run σ (List Response × Session) :=
  match v.result with
  | .error err => ⟨([.failed err], session), v.repo, v.effects⟩
  | .rejected => ⟨([.redirect failureRedirect], session), v.repo, v.effects⟩
  | .authenticated user =>
    match serializeUser user with
    | .error err => ⟨([.failed err], session), v.repo, v.effects⟩
    | .ok blob => ⟨([.redirect "/"], { user := some blob }), v.repo, v.effects⟩

/-- Route POST /login, server.js lines 45 to 51. The local strategy fails a request
whose username or password is empty or missing before it calls verify, which sends
the failure redirect without any external call; otherwise it runs verify and hands
the callback to the middleware. -/
def loginHandler {σ : Type} (R : Repository σ) (H : Hasher) (username password : String)
    (s : σ) (session : Session) : Run σ (List Response × Session) :=
  if username == "" || password == "" then
    ⟨([.redirect failureRedirect], session), s, []⟩
  else
    verified (verify R H username password s) session

/-- Route POST /register, server.js lines 53 to 89. The insert is awaited inside the
bcrypt callback, outside the reach of the try block, so a throwing insert sends
no response. -/
def registerHandler {σ : Type} (R : Repository σ) (H : Hasher) (username password : String)
    (s : σ) : Run σ (List Response) :=
  match R.selectUser s username with
  | .threw _ => ⟨[internalServerError], s, [.selectUser username]⟩
  | .returned existingUser _ =>
    if existingUser.isSome then
      ⟨[userAlreadyExists], s, [.selectUser username]⟩
    else
      match H.hash password saltRounds with
      | .error _ =>
        ⟨[internalServerError], s, [.selectUser username, .hash password saltRounds]⟩
      | .ok hash =>
        match R.insertUser s ⟨username, hash⟩ with
        | (.threw _, s1) =>
          ⟨[], s1, [.selectUser username, .hash password saltRounds,
            .insertUser ⟨username, hash⟩]⟩
        | (.returned _ error, s1) =>
          if error.isSome then
            ⟨[internalServerError], s1, [.selectUser username, .hash password saltRounds,
              .insertUser ⟨username, hash⟩]⟩
          else
            ⟨[userRegistered], s1, [.selectUser username, .hash password saltRounds,
              .insertUser ⟨username, hash⟩]⟩

/-- Call req.logout() of server.js line 92: no callback is passed, and the request
went through the middleware that server.js mounts (body parsers, cors, session), which
never includes passport.initialize or passport.session. With legacy set, Passport (0.4
and earlier) has patched a synchronous logout onto every request: it clears req.user
and, finding no login session on the request, leaves the session as it is. Otherwise
the request carries no usable logout and the call throws. -/
def logout (legacy : Bool) (session : Session) : Except Err Session :=
  if legacy then .ok session else .error "TypeError: req.logout is not a function"

/-- Route GET /logout, server.js lines 91 to 94. A throw at line 92 leaves the handler
before line 93 and is answered by the framework. -/
def logoutHandler (legacy : Bool) (session : Session) : List Response × Session :=
  match logout legacy session with
  | .error err => ([.failed err], session)
  | .ok cleared => ([loggedOut], cleared)

/-- Route GET /points, server.js lines 96 to 110. -/
def pointsHandler {σ : Type} (R : Repository σ) (s : σ) (session : Session) :
    Run σ (List Response × Session) :=
  match R.selectPoints s with
  | .threw _ => ⟨([internalServerError], session), s, [.selectPoints]⟩
  | .returned data error =>
    if error.isSome then
      ⟨([internalServerError], session), s, [.selectPoints]⟩
    else
      ⟨([.jsonData 200 data], session), s, [.selectPoints]⟩

/-! ## Reference repository

A table-backed model of the external store, used where a property speaks about
repository contents. -/

/-- Contents of the external store. -/
structure Store where
  users : List UserRecord
  points : List ResourceItem
deriving DecidableEq, Repr

/-- Modifier single() of the Supabase client: exactly one row is data, anything else
is an error object. -/
def single (rows : List UserRecord) : Query UserRecord :=
  match rows with
  | [r] => .returned (some r) none
  | [] => .returned none (some "PGRST116: 0 rows")
  | _ :: _ :: _ => .returned none (some "PGRST116: multiple rows")

/-- Rows of the users table whose username column equals the given identity. -/
def rowsFor (st : Store) (username : String) : List UserRecord :=
  st.users.filter (fun r => r.username == username)

/-- Insert into the users table. With the flag set the table carries a uniqueness
constraint on username, checked and applied in one atomic step. -/
def tableInsert (unique : Bool) (st : Store) (row : UserRecord) : Query UserRecord × Store :=
  if unique && !(rowsFor st row.username).isEmpty then
    (.returned none (some "23505: duplicate key value"), st)
  else
    (.returned none none, { st with users := st.users ++ [row] })

/-- Non-failing repository over a Store. -/
def tableRepo (unique : Bool) : Repository Store where
  selectUser st username := single (rowsFor st username)
  insertUser st row := tableInsert unique st row
  selectPoints st := .returned (some st.points) none

/-! ## Interleaved registrations

Each registration is cut at its suspension points (the awaited lookup, the bcrypt
callback, the awaited insert); a schedule picks which of two pending requests
resumes next. -/

/-- Where a register request is suspended. -/
inductive RegPc where
  | atLookup
  | atHash
  | atInsert (hash : String)
  | finished (responses : List Response)
deriving DecidableEq, Repr

/-- One resumption of a register request, the segments of server.js lines 53 to 89. -/
def regStep {σ : Type} (R : Repository σ) (H : Hasher) (username password : String)
    (pc : RegPc) (s : σ) : RegPc × σ :=
  match pc with
  | .atLookup =>
    match R.selectUser s username with
    | .threw _ => (.finished [internalServerError], s)
    | .returned existingUser _ =>
      if existingUser.isSome then (.finished [userAlreadyExists], s) else (.atHash, s)
  | .atHash =>
    match H.hash password saltRounds with
    | .error _ => (.finished [internalServerError], s)
    | .ok hash => (.atInsert hash, s)
  | .atInsert hash =>
    match R.insertUser s ⟨username, hash⟩ with
    | (.threw _, s1) => (.finished [], s1)
    | (.returned _ error, s1) =>
      if error.isSome then (.finished [internalServerError], s1)
      else (.finished [userRegistered], s1)
  | .finished responses => (.finished responses, s)

/-- Two register requests in flight against one repository. -/
structure Race (σ : Type) where
  repo : σ
  first : RegPc
  second : RegPc

/-- Resume the first request (true) or the second one (false). -/
def raceStep {σ : Type} (R : Repository σ) (H : Hasher) (username p1 p2 : String)
    (c : Race σ) (pick : Bool) : Race σ :=
  if pick then
    let r := regStep R H username p1 c.first c.repo
    { repo := r.2, first := r.1, second := c.second }
  else
    let r := regStep R H username p2 c.second c.repo
    { repo := r.2, first := c.first, second := r.1 }

/-- Run a schedule from the moment both requests have arrived. -/
def raceRun {σ : Type} (R : Repository σ) (H : Hasher) (username p1 p2 : String)
    (s : σ) (schedule : List Bool) : Race σ :=
  schedule.foldl (raceStep R H username p1 p2) ⟨s, .atLookup, .atLookup⟩

/-- A request has ended with exactly this response. -/
def endedWith (pc : RegPc) (r : Response) : Prop := pc = .finished [r]

instance (pc : RegPc) (r : Response) : Decidable (endedWith pc r) := by
  unfold endedWith; infer_instance

/-- Resumptions a register request still needs before it has ended. -/
def remaining : RegPc → Nat
  | .atLookup => 3
  | .atHash => 2
  | .atInsert _ => 1
  | .finished _ => 0

/-- Positions a request can be in while it has not yet written: before its lookup,
before its hash, holding the hash of its own plaintext, or ended with 500 because
its hash failed. -/
def Pending (H : Hasher) (p : String) (pc : RegPc) : Prop :=
  pc = .atLookup ∨ pc = .atHash ∨
  (∃ h, pc = .atInsert h ∧ H.hash p saltRounds = .ok h) ∨
  (pc = .finished [internalServerError] ∧ ∃ e, H.hash p saltRounds = .error e)

/-- Positions open to the request that did not create the record: still pending, or
ended with 400 or with 500. -/
def Beaten (H : Hasher) (p : String) (pc : RegPc) : Prop :=
  Pending H p pc ∨ pc = .finished [userAlreadyExists] ∨ pc = .finished [internalServerError]

/-- Invariant of two interleaved registrations of u on a table that did not hold u:
either nothing was written and both are pending, or one request created the record
carrying the hash of its own plaintext and the other one is beaten. -/
def RaceInv (H : Hasher) (st : Store) (u p1 p2 : String) (c : Race Store) : Prop :=
  (c.repo = st ∧ Pending H p1 c.first ∧ Pending H p2 c.second) ∨
  (∃ h, H.hash p1 saltRounds = .ok h ∧ c.repo = ⟨st.users ++ [⟨u, h⟩], st.points⟩ ∧
    c.first = .finished [userRegistered] ∧ Beaten H p2 c.second) ∨
  (∃ h, H.hash p2 saltRounds = .ok h ∧ c.repo = ⟨st.users ++ [⟨u, h⟩], st.points⟩ ∧
    c.second = .finished [userRegistered] ∧ Beaten H p1 c.first)

/-- Exactly one of the two requests ended with 200 and the other one ended with 400
or with 500. -/
def OneCreated (c : Race Store) : Prop :=
  (endedWith c.first userRegistered ∧
    (endedWith c.second userAlreadyExists ∨ endedWith c.second internalServerError)) ∨
  (endedWith c.second userRegistered ∧
    (endedWith c.first userAlreadyExists ∨ endedWith c.first internalServerError))

instance (c : Race Store) : Decidable (OneCreated c) := by
  unfold OneCreated; infer_instance

/-! ## Sample data -/

/-- Sample hasher: tags the plaintext with the work factor; compare recomputes the
tag. -/
def demoHasher : Hasher where
  hash p n := .ok ("h" ++ toString n ++ ":" ++ p)
  compare p h := .ok (h == "h10:" ++ p)

/-- Sample hasher that reports an error for the plaintext none and works as
demoHasher on every other plaintext. -/
def strictHasher : Hasher where
  hash p n := if p = "none" then .error "data must be a string or Buffer"
    else .ok ("h" ++ toString n ++ ":" ++ p)
  compare p h := .ok (h == "h10:" ++ p)

/-- Sample hasher whose hash call reports an error through its callback, as bcrypt
does for a request body that carries no usable password. -/
def failingHasher : Hasher where
  hash _ _ := .error "data and salt arguments required"
  compare _ _ := .error "data and hash arguments required"

/-- Sample store holding one registered user and one point. -/
def demoStore : Store := ⟨[⟨"alice", "h10:pw1"⟩], [[("id", "1")]]⟩

/-- Sample repository whose user lookup reports an error object and whose other
calls succeed. -/
def lookupErrorRepo : Repository Store where
  selectUser _ _ := .returned none (some "connection refused")
  insertUser st row := tableInsert true st row
  selectPoints st := .returned (some st.points) none

/-- Sample repository whose every call throws. -/
def throwingRepo : Repository Store where
  selectUser _ _ := .threw "fetch failed"
  insertUser st _ := (.threw "fetch failed", st)
  selectPoints _ := .threw "fetch failed"

/-- Sample repository whose user lookup throws and whose other calls succeed. -/
def lookupThrowsRepo : Repository Store where
  selectUser _ _ := .threw "fetch failed"
  insertUser st row := tableInsert true st row
  selectPoints st := .returned (some st.points) none

/-- Sample repository whose points query reports an error object. -/
def pointsErrorRepo : Repository Store where
  selectUser st username := single (rowsFor st username)
  insertUser st row := tableInsert true st row
  selectPoints _ := .returned none (some "permission denied for table points")

/-! ## Sequential composition -/

/-- Two register requests for one username, the second served after the first has
completed. -/
def registerTwice {σ : Type} (R : Repository σ) (H : Hasher) (username p1 p2 : String)
    (s : σ) : Run σ (List Response) × Run σ (List Response) :=
  let earlier := registerHandler R H username p1 s
  (earlier, registerHandler R H username p2 earlier.repo)

/-! ## Response table of the specification -/

/-- Response of POST /register as the specification words it: 400 when the existence
lookup returns a record; otherwise 500 when hashing fails or the insert reports an
error (a throwing insert is counted as reporting one); otherwise 200. -/
def registerResponseTable {σ : Type} (R : Repository σ) (H : Hasher)
    (username password : String) (s : σ) : Response :=
  match R.selectUser s username with
  | .returned (some _) _ => userAlreadyExists
  | _ =>
    match H.hash password saltRounds with
    | .error _ => internalServerError
    | .ok hash =>
      match (R.insertUser s ⟨username, hash⟩).1 with
      | .returned _ none => userRegistered
      | _ => internalServerError

/-! ## Lemmas on the strategy and the handlers -/

theorem verify_repo {σ : Type} (R : Repository σ) (H : Hasher) (username password : String)
    (s : σ) : (verify R H username password s).repo = s := by
  unfold verify
  split
  · rfl
  · split
    · rfl
    · rfl
    · split <;> rfl

theorem verify_of_threw {σ : Type} (R : Repository σ) (H : Hasher) (username password : String)
    (s : σ) (e : Err) (h : R.selectUser s username = .threw e) :
    verify R H username password s = ⟨.error e, s, [.selectUser username]⟩ := by
  unfold verify
  rw [h]

theorem verify_of_error {σ : Type} (R : Repository σ) (H : Hasher) (username password : String)
    (s : σ) (data : Option UserRecord) (e : Err)
    (h : R.selectUser s username = .returned data (some e)) :
    verify R H username password s = ⟨.rejected, s, [.selectUser username]⟩ := by
  unfold verify
  rw [h]

theorem verify_of_no_data {σ : Type} (R : Repository σ) (H : Hasher)
    (username password : String) (s : σ) (error : Option Err)
    (h : R.selectUser s username = .returned none error) :
    verify R H username password s = ⟨.rejected, s, [.selectUser username]⟩ := by
  unfold verify
  rw [h]
  cases error <;> rfl

theorem verify_of_found {σ : Type} (R : Repository σ) (H : Hasher) (username password : String)
    (s : σ) (user : UserRecord) (h : R.selectUser s username = .returned (some user) none) :
    verify R H username password s =
      ⟨match H.compare password user.password with
        | .error err => .error err
        | .ok true => .authenticated user
        | .ok false => .rejected,
       s, [.selectUser username, .compare password user.password]⟩ := by
  unfold verify
  rw [h]
  simp only
  split <;> rfl

theorem verified_of_rejected {σ : Type} (v : Run σ Verdict) (session : Session)
    (h : v.result = .rejected) :
    (verified v session).result = ([.redirect failureRedirect], session) := by
  unfold verified
  simp only [h]

theorem verified_of_authenticated {σ : Type} (v : Run σ Verdict) (session : Session)
    (user : UserRecord) (h : v.result = .authenticated user) :
    (verified v session).result = ([.redirect "/"], ⟨some user⟩) := by
  unfold verified
  simp only [h, serializeUser]

theorem loginHandler_of_empty {σ : Type} (R : Repository σ) (H : Hasher)
    (username password : String) (s : σ) (session : Session)
    (h : username = "" ∨ password = "") :
    loginHandler R H username password s session =
      ⟨([.redirect failureRedirect], session), s, []⟩ := by
  unfold loginHandler
  rcases h with h | h <;> simp [h]

theorem loginHandler_of_nonempty {σ : Type} (R : Repository σ) (H : Hasher)
    (username password : String) (s : σ) (session : Session)
    (hu : username ≠ "") (hp : password ≠ "") :
    loginHandler R H username password s session =
      verified (verify R H username password s) session := by
  unfold loginHandler
  simp [hu, hp]

theorem loginHandler_of_rejected {σ : Type} (R : Repository σ) (H : Hasher)
    (username password : String) (s : σ) (session : Session)
    (h : (verify R H username password s).result = .rejected) :
    (loginHandler R H username password s session).result =
      ([.redirect failureRedirect], session) := by
  by_cases hu : username = ""
  · rw [loginHandler_of_empty R H username password s session (Or.inl hu)]
  · by_cases hp : password = ""
    · rw [loginHandler_of_empty R H username password s session (Or.inr hp)]
    · rw [loginHandler_of_nonempty R H username password s session hu hp]
      exact verified_of_rejected _ session h

theorem loginHandler_of_authenticated {σ : Type} (R : Repository σ) (H : Hasher)
    (username password : String) (s : σ) (session : Session) (user : UserRecord)
    (hu : username ≠ "") (hp : password ≠ "")
    (h : (verify R H username password s).result = .authenticated user) :
    (loginHandler R H username password s session).result =
      ([.redirect "/"], ⟨some user⟩) := by
  rw [loginHandler_of_nonempty R H username password s session hu hp]
  exact verified_of_authenticated _ session user h

/-! ## Lemmas on the reference repository -/

theorem demoHasher_rejects (p q : String) (hq : q ≠ p) :
    demoHasher.compare q ("h10:" ++ p) = .ok false := by
  have hne : ¬ ("h10:" ++ p = "h10:" ++ q) := by
    intro h
    have hd := congrArg String.data h
    simp only [String.data_append, List.append_cancel_left_eq] at hd
    exact hq (String.ext hd).symm
  simp [demoHasher, hne]

theorem mem_rowsFor {st : Store} {u : String} {r : UserRecord} :
    r ∈ rowsFor st u ↔ r ∈ st.users ∧ r.username = u := by
  simp [rowsFor, List.mem_filter]

theorem rowsFor_absent {st : Store} {u : String} (h : ∀ r ∈ st.users, r.username ≠ u) :
    rowsFor st u = [] := by
  apply List.eq_nil_iff_forall_not_mem.mpr
  intro r hr
  exact h r (mem_rowsFor.mp hr).1 (mem_rowsFor.mp hr).2

theorem selectUser_absent (unique : Bool) {st : Store} {u : String}
    (h : ∀ r ∈ st.users, r.username ≠ u) :
    (tableRepo unique).selectUser st u = .returned none (some "PGRST116: 0 rows") := by
  show single (rowsFor st u) = _
  rw [rowsFor_absent h]
  rfl

theorem verify_table_absent (unique : Bool) (H : Hasher) {st : Store} {u : String} (p : String)
    (h : ∀ r ∈ st.users, r.username ≠ u) :
    verify (tableRepo unique) H u p st = ⟨.rejected, st, [.selectUser u]⟩ :=
  verify_of_no_data _ H u p st _ (selectUser_absent unique h)

theorem verify_table_wrong (unique : Bool) (H : Hasher) {st : Store} {u : String} (p : String)
    (h : ∀ r ∈ st.users, r.username = u → H.compare p r.password = .ok false) :
    (verify (tableRepo unique) H u p st).result = .rejected := by
  have hsel : (tableRepo unique).selectUser st u = single (rowsFor st u) := rfl
  rcases hrows : rowsFor st u with _ | ⟨r, _ | ⟨r2, rest⟩⟩
  · rw [verify_of_no_data _ H u p st (some "PGRST116: 0 rows") (by rw [hsel, hrows]; rfl)]
  · have hr : r ∈ rowsFor st u := by rw [hrows]; exact List.mem_singleton.mpr rfl
    have hcmp := h r (mem_rowsFor.mp hr).1 (mem_rowsFor.mp hr).2
    rw [verify_of_found _ H u p st r (by rw [hsel, hrows]; rfl), hcmp]
  · rw [verify_of_no_data _ H u p st (some "PGRST116: multiple rows")
      (by rw [hsel, hrows]; rfl)]

/-! ## Credential verification -/

/-- C1: when the lookup returns a record and no error, verify calls back with that
record if compare yields true, with false if compare yields false, and with the
error of compare if compare fails; it leaves the repository as it was and issues
no insert. -/
theorem verify_found_outcomes {σ : Type} (R : Repository σ) (H : Hasher)
    (username password : String) (s : σ) (user : UserRecord)
    (hlookup : R.selectUser s username = .returned (some user) none) :
    (H.compare password user.password = .ok true →
      (verify R H username password s).result = .authenticated user) ∧
    (H.compare password user.password = .ok false →
      (verify R H username password s).result = .rejected) ∧
    (∀ e, H.compare password user.password = .error e →
      (verify R H username password s).result = .error e) ∧
    (verify R H username password s).repo = s ∧
    (∀ row, Effect.insertUser row ∉ (verify R H username password s).effects) := by
  rw [verify_of_found R H username password s user hlookup]
  refine ⟨?_, ?_, ?_, rfl, ?_⟩
  · intro h; simp only [h]
  · intro h; simp only [h]
  · intro e h; simp only [h]
  · intro row; simp

theorem verify_found_outcomes_witness :
    (tableRepo true).selectUser demoStore "alice" = .returned (some ⟨"alice", "h10:pw1"⟩) none ∧
    (verify (tableRepo true) demoHasher "alice" "pw1" demoStore).result =
      .authenticated ⟨"alice", "h10:pw1"⟩ :=
  ⟨by rfl, (verify_found_outcomes (tableRepo true) demoHasher "alice" "pw1" demoStore
    ⟨"alice", "h10:pw1"⟩ (by rfl)).1 (by rfl)⟩

/-- C2: over the reference repository, an identity that is absent and an identity
that is present with a plaintext that compare rejects both make verify call back
with the single value cb(null, false), and POST /login answers both with the same
redirect to the failure path, leaving the session as it was. -/
theorem unknown_identity_same_as_wrong_password (unique : Bool) (H : Hasher) (st : Store)
    (u1 u2 p1 p2 : String) (session : Session)
    (habsent : ∀ r ∈ st.users, r.username ≠ u1)
    (_hpresent : ∃ r ∈ st.users, r.username = u2)
    (hwrong : ∀ r ∈ st.users, r.username = u2 → H.compare p2 r.password = .ok false) :
    (verify (tableRepo unique) H u1 p1 st).result = .rejected ∧
    (verify (tableRepo unique) H u2 p2 st).result = .rejected ∧
    (loginHandler (tableRepo unique) H u1 p1 st session).result =
      ([.redirect failureRedirect], session) ∧
    (loginHandler (tableRepo unique) H u2 p2 st session).result =
      (loginHandler (tableRepo unique) H u1 p1 st session).result := by
  have h1 : (verify (tableRepo unique) H u1 p1 st).result = .rejected := by
    rw [verify_table_absent unique H p1 habsent]
  have h2 := verify_table_wrong unique H p2 hwrong
  refine ⟨h1, h2, loginHandler_of_rejected _ H u1 p1 st session h1, ?_⟩
  rw [loginHandler_of_rejected _ H u1 p1 st session h1,
    loginHandler_of_rejected _ H u2 p2 st session h2]

theorem unknown_identity_same_as_wrong_password_witness :
    (loginHandler (tableRepo true) demoHasher "alice" "bad" demoStore ⟨none⟩).result =
      (loginHandler (tableRepo true) demoHasher "nobody" "x" demoStore ⟨none⟩).result :=
  (unknown_identity_same_as_wrong_password true demoHasher demoStore "nobody" "alice" "x" "bad"
    ⟨none⟩ (by simp [demoStore]) (by simp [demoStore]) (by simp [demoStore, demoHasher])).2.2.2

/-! ## Registration -/

theorem registerHandler_of_found {σ : Type} (R : Repository σ) (H : Hasher)
    (username password : String) (s : σ) (row : UserRecord) (error : Option Err)
    (h : R.selectUser s username = .returned (some row) error) :
    registerHandler R H username password s =
      ⟨[userAlreadyExists], s, [.selectUser username]⟩ := by
  unfold registerHandler
  rw [h]
  rfl

theorem registerHandler_of_threw {σ : Type} (R : Repository σ) (H : Hasher)
    (username password : String) (s : σ) (e : Err)
    (h : R.selectUser s username = .threw e) :
    registerHandler R H username password s =
      ⟨[internalServerError], s, [.selectUser username]⟩ := by
  unfold registerHandler
  rw [h]

theorem registerHandler_of_hash_error {σ : Type} (R : Repository σ) (H : Hasher)
    (username password : String) (s : σ) (error : Option Err) (e : Err)
    (h : R.selectUser s username = .returned none error)
    (hh : H.hash password saltRounds = .error e) :
    registerHandler R H username password s =
      ⟨[internalServerError], s, [.selectUser username, .hash password saltRounds]⟩ := by
  unfold registerHandler
  rw [h]
  simp only [Option.isSome_none, Bool.false_eq_true, if_false, hh]

theorem registerHandler_of_insert_error {σ : Type} (R : Repository σ) (H : Hasher)
    (username password : String) (s s1 : σ) (error : Option Err) (hash : String)
    (data : Option UserRecord) (e : Err)
    (h : R.selectUser s username = .returned none error)
    (hh : H.hash password saltRounds = .ok hash)
    (hi : R.insertUser s ⟨username, hash⟩ = (.returned data (some e), s1)) :
    registerHandler R H username password s =
      ⟨[internalServerError], s1, [.selectUser username, .hash password saltRounds,
        .insertUser ⟨username, hash⟩]⟩ := by
  unfold registerHandler
  rw [h]
  simp only [Option.isSome_none, Bool.false_eq_true, if_false, hh, hi, Option.isSome_some,
    if_true]

theorem registerHandler_of_inserted {σ : Type} (R : Repository σ) (H : Hasher)
    (username password : String) (s s1 : σ) (error : Option Err) (hash : String)
    (data : Option UserRecord)
    (h : R.selectUser s username = .returned none error)
    (hh : H.hash password saltRounds = .ok hash)
    (hi : R.insertUser s ⟨username, hash⟩ = (.returned data none, s1)) :
    registerHandler R H username password s =
      ⟨[userRegistered], s1, [.selectUser username, .hash password saltRounds,
        .insertUser ⟨username, hash⟩]⟩ := by
  unfold registerHandler
  rw [h]
  simp only [Option.isSome_none, Bool.false_eq_true, if_false, hh, hi]

theorem registerHandler_of_insert_threw {σ : Type} (R : Repository σ) (H : Hasher)
    (username password : String) (s s1 : σ) (error : Option Err) (hash : String) (e : Err)
    (h : R.selectUser s username = .returned none error)
    (hh : H.hash password saltRounds = .ok hash)
    (hi : R.insertUser s ⟨username, hash⟩ = (.threw e, s1)) :
    registerHandler R H username password s =
      ⟨[], s1, [.selectUser username, .hash password saltRounds,
        .insertUser ⟨username, hash⟩]⟩ := by
  unfold registerHandler
  rw [h]
  simp only [Option.isSome_none, Bool.false_eq_true, if_false, hh, hi]

/-- C3, as stated, fails: when the awaited lookup throws, no record is returned, the
hasher would succeed and the insert would report no error, yet the handler answers
500 and inserts nothing, where the stated table gives 200. -/
theorem register_table_fails_on_lookup_throw :
    lookupThrowsRepo.selectUser demoStore "bob" = .threw "fetch failed" ∧
    demoHasher.hash "pw2" saltRounds = .ok "h10:pw2" ∧
    (lookupThrowsRepo.insertUser demoStore ⟨"bob", "h10:pw2"⟩).1 = .returned none none ∧
    registerResponseTable lookupThrowsRepo demoHasher "bob" "pw2" demoStore = userRegistered ∧
    (registerHandler lookupThrowsRepo demoHasher "bob" "pw2" demoStore).result =
      [internalServerError] ∧
    (registerHandler lookupThrowsRepo demoHasher "bob" "pw2" demoStore).result ≠
      [registerResponseTable lookupThrowsRepo demoHasher "bob" "pw2" demoStore] ∧
    (registerHandler lookupThrowsRepo demoHasher "bob" "pw2" demoStore).effects =
      [.selectUser "bob"] := by
  refine ⟨rfl, by rfl, by rfl, by rfl, by rfl, by decide, by rfl⟩

/-- C3, amended: whenever the insert call does not throw, POST /register sends exactly
one response. It is 400 with the body User already exists when the lookup returns a
record, and then the only external call is the lookup and the repository is unchanged.
Otherwise it is 500 with the constant body Internal server error when the lookup call
throws, when hashing fails, or when the insert reports an error object, whatever the
error is. Otherwise it is 200 with the body User registered successfully, after
exactly one insert, of the record made of the username and the output of the hasher. -/
theorem register_response_table {σ : Type} (R : Repository σ) (H : Hasher)
    (username password : String) (s : σ) :
    (∀ row error, R.selectUser s username = .returned (some row) error →
      registerHandler R H username password s =
        ⟨[userAlreadyExists], s, [.selectUser username]⟩) ∧
    (∀ e, R.selectUser s username = .threw e →
      registerHandler R H username password s =
        ⟨[internalServerError], s, [.selectUser username]⟩) ∧
    (∀ error e, R.selectUser s username = .returned none error →
      H.hash password saltRounds = .error e →
      registerHandler R H username password s =
        ⟨[internalServerError], s, [.selectUser username, .hash password saltRounds]⟩) ∧
    (∀ error hash data e s1, R.selectUser s username = .returned none error →
      H.hash password saltRounds = .ok hash →
      R.insertUser s ⟨username, hash⟩ = (.returned data (some e), s1) →
      registerHandler R H username password s =
        ⟨[internalServerError], s1, [.selectUser username, .hash password saltRounds,
          .insertUser ⟨username, hash⟩]⟩) ∧
    (∀ error hash data s1, R.selectUser s username = .returned none error →
      H.hash password saltRounds = .ok hash →
      R.insertUser s ⟨username, hash⟩ = (.returned data none, s1) →
      registerHandler R H username password s =
        ⟨[userRegistered], s1, [.selectUser username, .hash password saltRounds,
          .insertUser ⟨username, hash⟩]⟩) ∧
    ((∀ hash e, H.hash password saltRounds = .ok hash →
        (R.insertUser s ⟨username, hash⟩).1 ≠ .threw e) →
      ∃ r, (registerHandler R H username password s).result = [r]) := by
  refine ⟨?_, ?_, ?_, ?_, ?_, ?_⟩
  · intro row error h
    exact registerHandler_of_found R H username password s row error h
  · intro e h
    exact registerHandler_of_threw R H username password s e h
  · intro error e h hh
    exact registerHandler_of_hash_error R H username password s error e h hh
  · intro error hash data e s1 h hh hi
    exact registerHandler_of_insert_error R H username password s s1 error hash data e h hh hi
  · intro error hash data s1 h hh hi
    exact registerHandler_of_inserted R H username password s s1 error hash data h hh hi
  · intro hno
    rcases hsel : R.selectUser s username with e | ⟨data, error⟩
    · exact ⟨_, by rw [registerHandler_of_threw R H username password s e hsel]⟩
    · cases data with
      | some row =>
        exact ⟨_, by rw [registerHandler_of_found R H username password s row error hsel]⟩
      | none =>
        rcases hh : H.hash password saltRounds with e | hash
        · exact ⟨_, by
            rw [registerHandler_of_hash_error R H username password s error e hsel hh]⟩
        · rcases hi : R.insertUser s ⟨username, hash⟩ with ⟨q, s1⟩
          cases q with
          | threw e => exact absurd (by rw [hi]) (hno hash e hh)
          | returned data ie =>
            cases ie with
            | none =>
              exact ⟨_, by
                rw [registerHandler_of_inserted R H username password s s1 error hash data
                  hsel hh hi]⟩
            | some e =>
              exact ⟨_, by
                rw [registerHandler_of_insert_error R H username password s s1 error hash
                  data e hsel hh hi]⟩

theorem register_response_table_witness :
    (tableRepo true).selectUser demoStore "alice" =
      .returned (some ⟨"alice", "h10:pw1"⟩) none ∧
    registerHandler (tableRepo true) demoHasher "alice" "pw9" demoStore =
      ⟨[userAlreadyExists], demoStore, [.selectUser "alice"]⟩ :=
  ⟨by rfl, (register_response_table (tableRepo true) demoHasher "alice" "pw9" demoStore).1
    ⟨"alice", "h10:pw1"⟩ none (by rfl)⟩

theorem tableInsert_absent (unique : Bool) {st : Store} {row : UserRecord}
    (h : ∀ r ∈ st.users, r.username ≠ row.username) :
    tableInsert unique st row = (.returned none none, ⟨st.users ++ [row], st.points⟩) := by
  unfold tableInsert
  rw [rowsFor_absent h]
  simp

theorem rowsFor_append_absent {st : Store} {u h : String}
    (habs : ∀ r ∈ st.users, r.username ≠ u) :
    rowsFor ⟨st.users ++ [⟨u, h⟩], st.points⟩ u = [⟨u, h⟩] := by
  have h0 : st.users.filter (fun r => r.username == u) = [] := rowsFor_absent habs
  simp [rowsFor, List.filter_append, h0]

theorem registerHandler_table_fresh (unique : Bool) (H : Hasher) {st : Store} {u p h : String}
    (habs : ∀ r ∈ st.users, r.username ≠ u) (hh : H.hash p saltRounds = .ok h) :
    registerHandler (tableRepo unique) H u p st =
      ⟨[userRegistered], ⟨st.users ++ [⟨u, h⟩], st.points⟩,
        [.selectUser u, .hash p saltRounds, .insertUser ⟨u, h⟩]⟩ :=
  registerHandler_of_inserted (tableRepo unique) H u p st _ _ h none
    (selectUser_absent unique habs) hh (tableInsert_absent unique habs)

theorem selectUser_after_insert (unique : Bool) {st : Store} {u h : String}
    (habs : ∀ r ∈ st.users, r.username ≠ u) :
    (tableRepo unique).selectUser ⟨st.users ++ [⟨u, h⟩], st.points⟩ u =
      .returned (some ⟨u, h⟩) none := by
  show single (rowsFor _ u) = _
  rw [rowsFor_append_absent habs]
  rfl

/-- C4: over the reference repository, with identity u absent and a hasher that
succeeds on p1, register(u, p1) followed by register(u, p2) answers 200 then 400; the
second request issues no insert and leaves the repository as the first one left it,
holding exactly one record for u, the one carrying the hash of p1. -/
theorem register_twice_created_then_conflict (unique : Bool) (H : Hasher) (st : Store)
    (u p1 p2 h1 : String)
    (habs : ∀ r ∈ st.users, r.username ≠ u)
    (hh : H.hash p1 saltRounds = .ok h1) :
    (registerTwice (tableRepo unique) H u p1 p2 st).1.result = [userRegistered] ∧
    (registerTwice (tableRepo unique) H u p1 p2 st).2.result = [userAlreadyExists] ∧
    (registerTwice (tableRepo unique) H u p1 p2 st).2.effects = [.selectUser u] ∧
    (registerTwice (tableRepo unique) H u p1 p2 st).2.repo =
      (registerTwice (tableRepo unique) H u p1 p2 st).1.repo ∧
    rowsFor (registerTwice (tableRepo unique) H u p1 p2 st).2.repo u = [⟨u, h1⟩] := by
  have h2 := registerHandler_of_found (tableRepo unique) H u p2
    ⟨st.users ++ [⟨u, h1⟩], st.points⟩ ⟨u, h1⟩ none (selectUser_after_insert unique habs)
  simp only [registerTwice, registerHandler_table_fresh unique H habs hh, h2]
  exact ⟨trivial, trivial, trivial, trivial, rowsFor_append_absent habs⟩

theorem register_twice_created_then_conflict_witness :
    (registerTwice (tableRepo true) demoHasher "bob" "pw2" "pw3" demoStore).1.result =
      [userRegistered] ∧
    (registerTwice (tableRepo true) demoHasher "bob" "pw2" "pw3" demoStore).2.result =
      [userAlreadyExists] :=
  ⟨(register_twice_created_then_conflict true demoHasher demoStore "bob" "pw2" "pw3" "h10:pw2"
      (by simp [demoStore]) (by rfl)).1,
   (register_twice_created_then_conflict true demoHasher demoStore "bob" "pw2" "pw3" "h10:pw2"
      (by simp [demoStore]) (by rfl)).2.1⟩

/-! ## Login -/

/-- C5, as stated, fails: with the empty plaintext, register succeeds and compare
accepts the plaintext against the stored hash and rejects every other one, yet
login with that plaintext is sent to the failure path, with no external call and
no principal, because the strategy fails empty credentials before verify runs. The
same happens for a registered empty username. -/
theorem login_with_empty_plaintext_rejected :
    (∀ r ∈ demoStore.users, r.username ≠ "bob") ∧
    (registerHandler (tableRepo true) demoHasher "bob" "" demoStore).result =
      [userRegistered] ∧
    demoHasher.hash "" saltRounds = .ok "h10:" ∧
    demoHasher.compare "" "h10:" = .ok true ∧
    (∀ q, q ≠ "" → demoHasher.compare q "h10:" = .ok false) ∧
    (verify (tableRepo true) demoHasher "bob" ""
      (registerHandler (tableRepo true) demoHasher "bob" "" demoStore).repo).result =
      .authenticated ⟨"bob", "h10:"⟩ ∧
    loginHandler (tableRepo true) demoHasher "bob" ""
      (registerHandler (tableRepo true) demoHasher "bob" "" demoStore).repo ⟨none⟩ =
      ⟨([.redirect failureRedirect], ⟨none⟩),
        (registerHandler (tableRepo true) demoHasher "bob" "" demoStore).repo, []⟩ ∧
    (loginHandler (tableRepo true) demoHasher "bob" ""
      (registerHandler (tableRepo true) demoHasher "bob" "" demoStore).repo ⟨none⟩).result ≠
      ([.redirect "/"], ⟨some ⟨"bob", "h10:"⟩⟩) ∧
    (registerHandler (tableRepo true) demoHasher "" "pw2" demoStore).result =
      [userRegistered] ∧
    (verify (tableRepo true) demoHasher "" "pw2"
      (registerHandler (tableRepo true) demoHasher "" "pw2" demoStore).repo).result =
      .authenticated ⟨"", "h10:pw2"⟩ ∧
    (loginHandler (tableRepo true) demoHasher "" "pw2"
      (registerHandler (tableRepo true) demoHasher "" "pw2" demoStore).repo ⟨none⟩).result =
      ([.redirect failureRedirect], ⟨none⟩) := by
  refine ⟨by simp [demoStore], by rfl, by rfl, by rfl,
    fun q hq => demoHasher_rejects "" q hq, by rfl, by rfl, by decide, by rfl, by rfl, by rfl⟩

/-- C5, amended: over the reference repository, with identity u absent, after a
successful register(u, p) with a hasher for which compare accepts p and rejects every
other plaintext against the stored hash: when u and p are both non-empty, login(u, p)
is authenticated with the stored record of u as principal and redirects to the root;
login(u, q) for every q different from p, and login(v, x) for every absent identity
v, are redirected to the failure path and leave the session as it was, and verify
rejects them. -/
theorem login_after_register (unique : Bool) (H : Hasher) (st : Store) (u p h : String)
    (session : Session)
    (habs : ∀ r ∈ st.users, r.username ≠ u)
    (hh : H.hash p saltRounds = .ok h)
    (hok : H.compare p h = .ok true)
    (hbad : ∀ q, q ≠ p → H.compare q h = .ok false) :
    (registerHandler (tableRepo unique) H u p st).result = [userRegistered] ∧
    rowsFor (registerHandler (tableRepo unique) H u p st).repo u = [⟨u, h⟩] ∧
    (verify (tableRepo unique) H u p (registerHandler (tableRepo unique) H u p st).repo).result =
      .authenticated ⟨u, h⟩ ∧
    (u ≠ "" → p ≠ "" →
      (loginHandler (tableRepo unique) H u p
        (registerHandler (tableRepo unique) H u p st).repo session).result =
        ([.redirect "/"], ⟨some ⟨u, h⟩⟩)) ∧
    (∀ q, q ≠ p →
      (verify (tableRepo unique) H u q
        (registerHandler (tableRepo unique) H u p st).repo).result = .rejected ∧
      (loginHandler (tableRepo unique) H u q
        (registerHandler (tableRepo unique) H u p st).repo session).result =
        ([.redirect failureRedirect], session)) ∧
    (∀ v x, (∀ r ∈ (registerHandler (tableRepo unique) H u p st).repo.users, r.username ≠ v) →
      (verify (tableRepo unique) H v x
        (registerHandler (tableRepo unique) H u p st).repo).result = .rejected ∧
      (loginHandler (tableRepo unique) H v x
        (registerHandler (tableRepo unique) H u p st).repo session).result =
        ([.redirect failureRedirect], session)) := by
  rw [registerHandler_table_fresh unique H habs hh]
  have hsel : (tableRepo unique).selectUser ⟨st.users ++ [⟨u, h⟩], st.points⟩ u =
      .returned (some ⟨u, h⟩) none := selectUser_after_insert unique habs
  have hv : (verify (tableRepo unique) H u p ⟨st.users ++ [⟨u, h⟩], st.points⟩).result =
      .authenticated ⟨u, h⟩ := by
    rw [verify_of_found _ H u p _ ⟨u, h⟩ hsel]
    simp only [hok]
  refine ⟨rfl, rowsFor_append_absent habs, hv,
    fun hu hp => loginHandler_of_authenticated _ H u p _ session ⟨u, h⟩ hu hp hv, ?_, ?_⟩
  · intro q hq
    have hr : (verify (tableRepo unique) H u q ⟨st.users ++ [⟨u, h⟩], st.points⟩).result =
        .rejected := by
      rw [verify_of_found _ H u q _ ⟨u, h⟩ hsel]
      simp only [hbad q hq]
    exact ⟨hr, loginHandler_of_rejected _ H u q _ session hr⟩
  · intro v x hv
    have hr : (verify (tableRepo unique) H v x ⟨st.users ++ [⟨u, h⟩], st.points⟩).result =
        .rejected := by
      rw [verify_table_absent unique H x hv]
    exact ⟨hr, loginHandler_of_rejected _ H v x _ session hr⟩

theorem login_after_register_witness :
    (loginHandler (tableRepo true) demoHasher "bob" "pw2"
      (registerHandler (tableRepo true) demoHasher "bob" "pw2" demoStore).repo ⟨none⟩).result =
      ([.redirect "/"], ⟨some ⟨"bob", "h10:pw2"⟩⟩) :=
  (login_after_register true demoHasher demoStore "bob" "pw2" "h10:pw2" ⟨none⟩
    (by simp [demoStore]) (by rfl) (by rfl)
    (fun q hq => demoHasher_rejects "pw2" q hq)).2.2.2.1 (by decide) (by decide)

/-! ## Repository failures -/

theorem pointsHandler_of_threw {σ : Type} (R : Repository σ) (s : σ) (session : Session)
    (e : Err) (h : R.selectPoints s = .threw e) :
    pointsHandler R s session = ⟨([internalServerError], session), s, [.selectPoints]⟩ := by
  unfold pointsHandler
  rw [h]

theorem pointsHandler_of_error {σ : Type} (R : Repository σ) (s : σ) (session : Session)
    (data : Option (List ResourceItem)) (e : Err)
    (h : R.selectPoints s = .returned data (some e)) :
    pointsHandler R s session = ⟨([internalServerError], session), s, [.selectPoints]⟩ := by
  unfold pointsHandler
  rw [h]
  rfl

theorem pointsHandler_of_data {σ : Type} (R : Repository σ) (s : σ) (session : Session)
    (data : Option (List ResourceItem))
    (h : R.selectPoints s = .returned data none) :
    pointsHandler R s session = ⟨([.jsonData 200 data], session), s, [.selectPoints]⟩ := by
  unfold pointsHandler
  rw [h]
  rfl

/-- C6, as stated, fails: a lookup that returns an error object makes verify call
back with cb(null, false), not with an error, and lets POST /register go on to hash
and insert and answer 200. -/
theorem lookup_error_object_not_internal_error :
    lookupErrorRepo.selectUser demoStore "bob" =
      .returned none (some "connection refused") ∧
    (verify lookupErrorRepo demoHasher "bob" "pw2" demoStore).result = .rejected ∧
    (∀ e, (verify lookupErrorRepo demoHasher "bob" "pw2" demoStore).result ≠ .error e) ∧
    (registerHandler lookupErrorRepo demoHasher "bob" "pw2" demoStore).result =
      [userRegistered] ∧
    (registerHandler lookupErrorRepo demoHasher "bob" "pw2" demoStore).effects =
      [.selectUser "bob", .hash "pw2" 10, .insertUser ⟨"bob", "h10:pw2"⟩] := by
  refine ⟨rfl, by rfl, ?_, by rfl, by rfl⟩
  intro e h
  have h2 : (verify lookupErrorRepo demoHasher "bob" "pw2" demoStore).result = .rejected := by
    rfl
  rw [h2] at h
  cases h

/-- C6, amended: a user lookup that throws surfaces as an error: verify calls back
with that error and POST /register answers 500 without hashing or inserting. A
points query that throws or returns an error object makes GET /points answer 500,
and an insert that returns an error object makes POST /register answer 500. A user
lookup that returns an error object is handled as no record found: verify calls
back with cb(null, false), and POST /register does not look at the error object
and goes on to hash and insert, answering 200 when both succeed. Nothing is stated
about an insert call that throws. -/
theorem repository_failure_outcomes {σ : Type} (R : Repository σ) (H : Hasher)
    (username password : String) (s : σ) (session : Session) :
    (∀ e, R.selectUser s username = .threw e →
      (verify R H username password s).result = .error e ∧
      registerHandler R H username password s =
        ⟨[internalServerError], s, [.selectUser username]⟩) ∧
    (∀ e, R.selectPoints s = .threw e →
      (pointsHandler R s session).result = ([internalServerError], session)) ∧
    (∀ data e, R.selectPoints s = .returned data (some e) →
      (pointsHandler R s session).result = ([internalServerError], session)) ∧
    (∀ error hash data e s1, R.selectUser s username = .returned none error →
      H.hash password saltRounds = .ok hash →
      R.insertUser s ⟨username, hash⟩ = (.returned data (some e), s1) →
      (registerHandler R H username password s).result = [internalServerError]) ∧
    (∀ data e, R.selectUser s username = .returned data (some e) →
      (verify R H username password s).result = .rejected) ∧
    (∀ e hash data s1, R.selectUser s username = .returned none (some e) →
      H.hash password saltRounds = .ok hash →
      R.insertUser s ⟨username, hash⟩ = (.returned data none, s1) →
      registerHandler R H username password s =
        ⟨[userRegistered], s1, [.selectUser username, .hash password saltRounds,
          .insertUser ⟨username, hash⟩]⟩) := by
  refine ⟨?_, ?_, ?_, ?_, ?_, ?_⟩
  · intro e h
    exact ⟨by rw [verify_of_threw R H username password s e h],
      registerHandler_of_threw R H username password s e h⟩
  · intro e h
    rw [pointsHandler_of_threw R s session e h]
  · intro data e h
    rw [pointsHandler_of_error R s session data e h]
  · intro error hash data e s1 h hh hi
    rw [registerHandler_of_insert_error R H username password s s1 error hash data e h hh hi]
  · intro data e h
    rw [verify_of_error R H username password s data e h]
  · intro e hash data s1 h hh hi
    exact registerHandler_of_inserted R H username password s s1 (some e) hash data h hh hi

theorem repository_failure_outcomes_witness :
    throwingRepo.selectUser demoStore "alice" = .threw "fetch failed" ∧
    (verify throwingRepo demoHasher "alice" "pw1" demoStore).result = .error "fetch failed" ∧
    registerHandler throwingRepo demoHasher "alice" "pw1" demoStore =
      ⟨[internalServerError], demoStore, [.selectUser "alice"]⟩ :=
  ⟨rfl, (repository_failure_outcomes throwingRepo demoHasher "alice" "pw1" demoStore
    ⟨none⟩).1 "fetch failed" rfl⟩

/-! ## Session serialisation -/

/-- C7, as stated, fails: the blob that serializeUser produces for an authenticated
record, and that the login stores in the session, carries the credential hash of
that record in its password field. -/
theorem session_blob_carries_hash :
    (verify (tableRepo true) demoHasher "alice" "pw1" demoStore).result =
      .authenticated ⟨"alice", "h10:pw1"⟩ ∧
    serializeUser ⟨"alice", "h10:pw1"⟩ = .ok ⟨"alice", "h10:pw1"⟩ ∧
    (loginHandler (tableRepo true) demoHasher "alice" "pw1" demoStore ⟨none⟩).result.2 =
      ⟨some ⟨"alice", "h10:pw1"⟩⟩ ∧
    ((loginHandler (tableRepo true) demoHasher "alice" "pw1" demoStore ⟨none⟩).result.2.user.map
      UserRecord.password) = some "h10:pw1" := by
  refine ⟨by rfl, by rfl, by rfl, by rfl⟩

/-- C7, amended: serializeUser hands the principal record to the session store
unchanged, so for every record that verify hands to the session layer on an
authenticated outcome the blob persisted in the session is the whole record, its
credential hash included; deserializeUser returns the blob unchanged as well. The
login route reaches that outcome whenever its credentials are non-empty. -/
theorem serialize_keeps_whole_record {σ : Type} (R : Repository σ) (H : Hasher)
    (username password : String) (s : σ) (session : Session) (user : UserRecord)
    (h : (verify R H username password s).result = .authenticated user) :
    serializeUser user = .ok user ∧
    deserializeUser user = .ok user ∧
    (verified (verify R H username password s) session).result.2 = ⟨some user⟩ ∧
    (∀ blob, (verified (verify R H username password s) session).result.2.user = some blob →
      blob.password = user.password) ∧
    (username ≠ "" → password ≠ "" →
      (loginHandler R H username password s session).result.2 = ⟨some user⟩ ∧
      ∀ blob, (loginHandler R H username password s session).result.2.user = some blob →
        blob.password = user.password) := by
  have hv := verified_of_authenticated (verify R H username password s) session user h
  refine ⟨rfl, rfl, by rw [hv], ?_, ?_⟩
  · intro blob hb
    rw [hv] at hb
    cases hb
    rfl
  · intro hu hp
    rw [loginHandler_of_authenticated R H username password s session user hu hp h]
    refine ⟨rfl, ?_⟩
    intro blob hb
    cases hb
    rfl

theorem serialize_keeps_whole_record_witness :
    (verify (tableRepo true) demoHasher "alice" "pw1" demoStore).result =
      .authenticated ⟨"alice", "h10:pw1"⟩ ∧
    (loginHandler (tableRepo true) demoHasher "alice" "pw1" demoStore ⟨none⟩).result.2 =
      ⟨some ⟨"alice", "h10:pw1"⟩⟩ :=
  ⟨by rfl, ((serialize_keeps_whole_record (tableRepo true) demoHasher "alice" "pw1" demoStore
    ⟨none⟩ ⟨"alice", "h10:pw1"⟩ (by rfl)).2.2.2.2 (by decide) (by decide)).1⟩

/-! ## Points endpoint -/

/-- C8: GET /points answers the same for any two session states and leaves the
session and the repository as they were: 200 with exactly the data of the query, in
its order, when the query reports no error, and 500 with the constant body Internal
server error when the query reports an error object or throws. -/
theorem points_independent_of_session {σ : Type} (R : Repository σ) (s : σ)
    (s1 s2 : Session) :
    (pointsHandler R s s1).result.1 = (pointsHandler R s s2).result.1 ∧
    (pointsHandler R s s1).result.2 = s1 ∧
    (pointsHandler R s s1).repo = s ∧
    (∀ data, R.selectPoints s = .returned data none →
      (pointsHandler R s s1).result.1 = [.jsonData 200 data]) ∧
    (∀ data e, R.selectPoints s = .returned data (some e) →
      (pointsHandler R s s1).result.1 = [internalServerError]) ∧
    (∀ e, R.selectPoints s = .threw e →
      (pointsHandler R s s1).result.1 = [internalServerError]) ∧
    (∀ unique st, (pointsHandler (tableRepo unique) st s1).result.1 =
      [.jsonData 200 (some st.points)]) := by
  refine ⟨?_, ?_, ?_, ?_, ?_, ?_, ?_⟩
  · rcases h : R.selectPoints s with e | ⟨data, error⟩
    · rw [pointsHandler_of_threw R s s1 e h, pointsHandler_of_threw R s s2 e h]
    · cases error with
      | none => rw [pointsHandler_of_data R s s1 data h, pointsHandler_of_data R s s2 data h]
      | some e =>
        rw [pointsHandler_of_error R s s1 data e h, pointsHandler_of_error R s s2 data e h]
  · rcases h : R.selectPoints s with e | ⟨data, error⟩
    · rw [pointsHandler_of_threw R s s1 e h]
    · cases error with
      | none => rw [pointsHandler_of_data R s s1 data h]
      | some e => rw [pointsHandler_of_error R s s1 data e h]
  · rcases h : R.selectPoints s with e | ⟨data, error⟩
    · rw [pointsHandler_of_threw R s s1 e h]
    · cases error with
      | none => rw [pointsHandler_of_data R s s1 data h]
      | some e => rw [pointsHandler_of_error R s s1 data e h]
  · intro data h
    rw [pointsHandler_of_data R s s1 data h]
  · intro data e h
    rw [pointsHandler_of_error R s s1 data e h]
  · intro e h
    rw [pointsHandler_of_threw R s s1 e h]
  · intro unique st
    rfl

theorem points_independent_of_session_witness :
    pointsErrorRepo.selectPoints demoStore =
      .returned none (some "permission denied for table points") ∧
    (pointsHandler pointsErrorRepo demoStore ⟨some ⟨"alice", "h10:pw1"⟩⟩).result.1 =
      [internalServerError] :=
  ⟨rfl, (points_independent_of_session pointsErrorRepo demoStore ⟨some ⟨"alice", "h10:pw1"⟩⟩
    ⟨none⟩).2.2.2.2.1 none "permission denied for table points" rfl⟩

/-! ## Logout -/

/-- C9, evaluated on the code: GET /logout never removes the principal from the
session. Where the request carries no usable logout the call at line 92 throws, the
handler never reaches line 93, and the framework answers the error in place of the
200 body; where a legacy synchronous logout is present the answer is 200 but the
session still holds its principal. -/
theorem logout_keeps_principal (legacy : Bool) (user : UserRecord) :
    (logoutHandler legacy ⟨some user⟩).2 = ⟨some user⟩ ∧
    (logoutHandler false ⟨some user⟩).1 =
      [.failed "TypeError: req.logout is not a function"] ∧
    (logoutHandler false ⟨some user⟩).1 ≠ [loggedOut] ∧
    (logoutHandler true ⟨some user⟩).1 = [loggedOut] := by
  refine ⟨?_, rfl, ?_, rfl⟩
  · cases legacy <;> rfl
  · intro h
    have h2 : (logoutHandler false ⟨some user⟩).1 =
        [.failed "TypeError: req.logout is not a function"] := rfl
    rw [h2] at h
    exact absurd h (by decide)

/-! ## Interleaved registrations -/

theorem regStep_finished {σ : Type} (R : Repository σ) (H : Hasher) (u p : String)
    (rs : List Response) (s : σ) :
    regStep R H u p (.finished rs) s = (.finished rs, s) := rfl

theorem regStep_hash_ok {σ : Type} (R : Repository σ) (H : Hasher) (u p h : String) (s : σ)
    (hh : H.hash p saltRounds = .ok h) :
    regStep R H u p .atHash s = (.atInsert h, s) := by
  simp only [regStep, hh]

theorem regStep_hash_error {σ : Type} (R : Repository σ) (H : Hasher) (u p : String) (e : Err)
    (s : σ) (hh : H.hash p saltRounds = .error e) :
    regStep R H u p .atHash s = (.finished [internalServerError], s) := by
  simp only [regStep, hh]

theorem regStep_lookup_absent (H : Hasher) {st : Store} {u : String} (p : String)
    (habs : ∀ r ∈ st.users, r.username ≠ u) :
    regStep (tableRepo true) H u p .atLookup st = (.atHash, st) := by
  simp only [regStep, selectUser_absent true habs]
  rfl

theorem regStep_insert_absent (H : Hasher) {st : Store} {u : String} (p h : String)
    (habs : ∀ r ∈ st.users, r.username ≠ u) :
    regStep (tableRepo true) H u p (.atInsert h) st =
      (.finished [userRegistered], ⟨st.users ++ [⟨u, h⟩], st.points⟩) := by
  have hi : (tableRepo true).insertUser st ⟨u, h⟩ =
      (.returned none none, ⟨st.users ++ [⟨u, h⟩], st.points⟩) :=
    tableInsert_absent true habs
  simp only [regStep, hi]
  rfl

theorem regStep_lookup_taken (H : Hasher) {st : Store} {u : String} (p h0 : String)
    (habs : ∀ r ∈ st.users, r.username ≠ u) :
    regStep (tableRepo true) H u p .atLookup ⟨st.users ++ [⟨u, h0⟩], st.points⟩ =
      (.finished [userAlreadyExists], ⟨st.users ++ [⟨u, h0⟩], st.points⟩) := by
  simp only [regStep, selectUser_after_insert true habs]
  rfl

theorem regStep_insert_taken (H : Hasher) {st : Store} {u : String} (p h h0 : String)
    (habs : ∀ r ∈ st.users, r.username ≠ u) :
    regStep (tableRepo true) H u p (.atInsert h) ⟨st.users ++ [⟨u, h0⟩], st.points⟩ =
      (.finished [internalServerError], ⟨st.users ++ [⟨u, h0⟩], st.points⟩) := by
  have hi : (tableRepo true).insertUser ⟨st.users ++ [⟨u, h0⟩], st.points⟩ ⟨u, h⟩ =
      (.returned none (some "23505: duplicate key value"),
        ⟨st.users ++ [⟨u, h0⟩], st.points⟩) := by
    show tableInsert true _ _ = _
    unfold tableInsert
    rw [rowsFor_append_absent habs]
    rfl
  simp only [regStep, hi]
  rfl

/-- Running the three segments back to back is the register handler. -/
theorem regStep_thrice {σ : Type} (R : Repository σ) (H : Hasher) (u p : String) (s : σ) :
    regStep R H u p (regStep R H u p (regStep R H u p .atLookup s).1
        (regStep R H u p .atLookup s).2).1
      (regStep R H u p (regStep R H u p .atLookup s).1 (regStep R H u p .atLookup s).2).2 =
    (.finished (registerHandler R H u p s).result, (registerHandler R H u p s).repo) := by
  rcases hsel : R.selectUser s u with e | ⟨data, error⟩
  · rw [registerHandler_of_threw R H u p s e hsel]
    simp only [regStep, hsel]
  · cases data with
    | some row =>
      rw [registerHandler_of_found R H u p s row error hsel]
      simp only [regStep, hsel]
      rfl
    | none =>
      rcases hh : H.hash p saltRounds with e | hash
      · rw [registerHandler_of_hash_error R H u p s error e hsel hh]
        simp [regStep, hsel, hh]
      · rcases hi : R.insertUser s ⟨u, hash⟩ with ⟨q, s1⟩
        cases q with
        | threw e =>
          rw [registerHandler_of_insert_threw R H u p s s1 error hash e hsel hh hi]
          simp [regStep, hsel, hh, hi]
        | returned d ie =>
          cases ie with
          | none =>
            rw [registerHandler_of_inserted R H u p s s1 error hash d hsel hh hi]
            simp [regStep, hsel, hh, hi]
          | some e =>
            rw [registerHandler_of_insert_error R H u p s s1 error hash d e hsel hh hi]
            simp [regStep, hsel, hh, hi]

theorem pending_step (H : Hasher) {st : Store} {u p : String} {pc : RegPc}
    (habs : ∀ r ∈ st.users, r.username ≠ u) (hp : Pending H p pc) :
    ((regStep (tableRepo true) H u p pc st).2 = st ∧
      Pending H p (regStep (tableRepo true) H u p pc st).1) ∨
    (∃ h, H.hash p saltRounds = .ok h ∧
      (regStep (tableRepo true) H u p pc st).2 = ⟨st.users ++ [⟨u, h⟩], st.points⟩ ∧
      (regStep (tableRepo true) H u p pc st).1 = .finished [userRegistered]) := by
  rcases hp with rfl | rfl | ⟨h, rfl, hh⟩ | ⟨rfl, e, he⟩
  · rw [regStep_lookup_absent H p habs]
    exact Or.inl ⟨rfl, Or.inr (Or.inl rfl)⟩
  · rcases hh : H.hash p saltRounds with e | h
    · rw [regStep_hash_error _ H u p e st hh]
      exact Or.inl ⟨rfl, Or.inr (Or.inr (Or.inr ⟨rfl, e, hh⟩))⟩
    · rw [regStep_hash_ok _ H u p h st hh]
      exact Or.inl ⟨rfl, Or.inr (Or.inr (Or.inl ⟨h, rfl, hh⟩))⟩
  · rw [regStep_insert_absent H p h habs]
    exact Or.inr ⟨h, hh, rfl, rfl⟩
  · rw [regStep_finished]
    exact Or.inl ⟨rfl, Or.inr (Or.inr (Or.inr ⟨rfl, e, he⟩))⟩

theorem beaten_step (H : Hasher) {st : Store} {u p : String} {pc : RegPc} (h0 : String)
    (habs : ∀ r ∈ st.users, r.username ≠ u) (hb : Beaten H p pc) :
    (regStep (tableRepo true) H u p pc ⟨st.users ++ [⟨u, h0⟩], st.points⟩).2 =
      ⟨st.users ++ [⟨u, h0⟩], st.points⟩ ∧
    Beaten H p (regStep (tableRepo true) H u p pc ⟨st.users ++ [⟨u, h0⟩], st.points⟩).1 := by
  rcases hb with (rfl | rfl | ⟨h, rfl, hh⟩ | ⟨rfl, e, he⟩) | rfl | rfl
  · rw [regStep_lookup_taken H p h0 habs]
    exact ⟨rfl, Or.inr (Or.inl rfl)⟩
  · rcases hh : H.hash p saltRounds with e | h
    · rw [regStep_hash_error _ H u p e _ hh]
      exact ⟨rfl, Or.inr (Or.inr rfl)⟩
    · rw [regStep_hash_ok _ H u p h _ hh]
      exact ⟨rfl, Or.inl (Or.inr (Or.inr (Or.inl ⟨h, rfl, hh⟩)))⟩
  · rw [regStep_insert_taken H p h h0 habs]
    exact ⟨rfl, Or.inr (Or.inr rfl)⟩
  · rw [regStep_finished]
    exact ⟨rfl, Or.inr (Or.inr rfl)⟩
  · rw [regStep_finished]
    exact ⟨rfl, Or.inr (Or.inl rfl)⟩
  · rw [regStep_finished]
    exact ⟨rfl, Or.inr (Or.inr rfl)⟩

theorem raceInv_step (H : Hasher) {st : Store} {u p1 p2 : String} {c : Race Store}
    (habs : ∀ r ∈ st.users, r.username ≠ u) (pick : Bool)
    (hinv : RaceInv H st u p1 p2 c) :
    RaceInv H st u p1 p2 (raceStep (tableRepo true) H u p1 p2 c pick) := by
  obtain ⟨repo, pcA, pcB⟩ := c
  rcases hinv with ⟨hr, hA, hB⟩ | ⟨h, hh, hr, hA, hB⟩ | ⟨h, hh, hr, hB, hA⟩
  · simp only at hr hA hB
    subst hr
    cases pick with
    | true =>
      rcases pending_step H habs hA with ⟨e1, e2⟩ | ⟨h, hh, e1, e2⟩
      · exact Or.inl ⟨e1, e2, hB⟩
      · exact Or.inr (Or.inl ⟨h, hh, e1, e2, Or.inl hB⟩)
    | false =>
      rcases pending_step H habs hB with ⟨e1, e2⟩ | ⟨h, hh, e1, e2⟩
      · exact Or.inl ⟨e1, hA, e2⟩
      · exact Or.inr (Or.inr ⟨h, hh, e1, e2, Or.inl hA⟩)
  · simp only at hr hA hB
    subst hr hA
    cases pick with
    | true => exact Or.inr (Or.inl ⟨h, hh, rfl, rfl, hB⟩)
    | false =>
      have hs := beaten_step H h habs hB
      exact Or.inr (Or.inl ⟨h, hh, hs.1, rfl, hs.2⟩)
  · simp only at hr hA hB
    subst hr hB
    cases pick with
    | true =>
      have hs := beaten_step H h habs hA
      exact Or.inr (Or.inr ⟨h, hh, hs.1, rfl, hs.2⟩)
    | false => exact Or.inr (Or.inr ⟨h, hh, rfl, rfl, hA⟩)

theorem raceInv_foldl (H : Hasher) {st : Store} {u p1 p2 : String}
    (habs : ∀ r ∈ st.users, r.username ≠ u) (schedule : List Bool) (c : Race Store)
    (hinv : RaceInv H st u p1 p2 c) :
    RaceInv H st u p1 p2 (schedule.foldl (raceStep (tableRepo true) H u p1 p2) c) := by
  induction schedule generalizing c with
  | nil => exact hinv
  | cons pick rest ih => exact ih _ (raceInv_step H habs pick hinv)

theorem raceInv_run (H : Hasher) {st : Store} {u p1 p2 : String}
    (habs : ∀ r ∈ st.users, r.username ≠ u) (schedule : List Bool) :
    RaceInv H st u p1 p2 (raceRun (tableRepo true) H u p1 p2 st schedule) :=
  raceInv_foldl H habs schedule _ (Or.inl ⟨rfl, Or.inl rfl, Or.inl rfl⟩)

theorem pending_finished {H : Hasher} {p : String} {rs : List Response}
    (hp : Pending H p (.finished rs)) :
    rs = [internalServerError] ∧ ∃ e, H.hash p saltRounds = .error e := by
  rcases hp with h | h | ⟨h, hpc, _⟩ | ⟨hpc, he⟩
  · cases h
  · cases h
  · cases hpc
  · cases hpc
    exact ⟨rfl, he⟩

theorem beaten_finished {H : Hasher} {p : String} {rs : List Response}
    (hb : Beaten H p (.finished rs)) :
    rs = [userAlreadyExists] ∨ rs = [internalServerError] := by
  rcases hb with hp | h | h
  · exact Or.inr (pending_finished hp).1
  · cases h
    exact Or.inl rfl
  · cases h
    exact Or.inr rfl

theorem beaten_not_created {H : Hasher} {p : String} {pc : RegPc} (hb : Beaten H p pc) :
    ¬ endedWith pc userRegistered := by
  intro h
  unfold endedWith at h
  subst h
  rcases beaten_finished hb with h | h
  · exact absurd h (by decide)
  · exact absurd h (by decide)

theorem remaining_step {σ : Type} (R : Repository σ) (H : Hasher) (u p : String) (pc : RegPc)
    (s : σ) : remaining (regStep R H u p pc s).1 ≤ remaining pc - 1 := by
  cases pc with
  | atLookup =>
    rcases hsel : R.selectUser s u with e | ⟨data, error⟩
    · simp [regStep, hsel, remaining]
    · cases data <;> simp [regStep, hsel, remaining]
  | atHash =>
    rcases hh : H.hash p saltRounds with e | h <;> simp [regStep, hh, remaining]
  | atInsert h =>
    rcases hi : R.insertUser s ⟨u, h⟩ with ⟨q, s1⟩
    cases q with
    | threw e => simp [regStep, hi, remaining]
    | returned d ie => cases ie <;> simp [regStep, hi, remaining]
  | finished rs => simp [regStep, remaining]

theorem remaining_foldl {σ : Type} (R : Repository σ) (H : Hasher) (u p1 p2 : String)
    (schedule : List Bool) (c : Race σ) :
    remaining (schedule.foldl (raceStep R H u p1 p2) c).first ≤
      remaining c.first - schedule.count true ∧
    remaining (schedule.foldl (raceStep R H u p1 p2) c).second ≤
      remaining c.second - schedule.count false := by
  induction schedule generalizing c with
  | nil => simp
  | cons pick rest ih =>
    have h := ih (raceStep R H u p1 p2 c pick)
    cases pick with
    | true =>
      have hs := remaining_step R H u p1 c.first c.repo
      have e1 : (true :: rest).count true = rest.count true + 1 := by simp
      have e2 : (true :: rest).count false = rest.count false := by simp
      rw [List.foldl_cons, e1, e2]
      simp only [raceStep, if_true] at h ⊢
      omega
    | false =>
      have hs := remaining_step R H u p2 c.second c.repo
      have e1 : (false :: rest).count true = rest.count true := by simp
      have e2 : (false :: rest).count false = rest.count false + 1 := by simp
      rw [List.foldl_cons, e1, e2]
      simp only [raceStep, Bool.false_eq_true, if_false] at h ⊢
      omega

theorem finished_of_remaining_zero (pc : RegPc) (h : remaining pc = 0) :
    ∃ rs, pc = .finished rs := by
  cases pc with
  | finished rs => exact ⟨rs, rfl⟩
  | atLookup => simp [remaining] at h
  | atHash => simp [remaining] at h
  | atInsert _ => simp [remaining] at h

/-- C10, as stated, fails: when the hash step fails for both requests, both end with
500 on a repository with an atomic uniqueness constraint, so no request ends
Created. -/
theorem race_failing_hash_creates_none :
    (raceRun (tableRepo true) failingHasher "bob" "pw2" "pw3" demoStore
      [true, false, true, false]).first = .finished [internalServerError] ∧
    (raceRun (tableRepo true) failingHasher "bob" "pw2" "pw3" demoStore
      [true, false, true, false]).second = .finished [internalServerError] ∧
    ¬ OneCreated (raceRun (tableRepo true) failingHasher "bob" "pw2" "pw3" demoStore
      [true, false, true, false]) := by
  refine ⟨by rfl, by rfl, by decide⟩

/-- C10, amended: two register requests for an identity u absent from a repository
whose insert atomically rejects a duplicate identity, resumed in any order at their
suspension points (lookup, hash, insert). At every point the repository holds at most
one record for u and at most one request has ended Created. When the hash step
succeeds for at least one of the two plaintexts and both requests have ended, exactly
one ended Created (200), the other ended Conflict (400) or Error (500), and the
repository holds exactly one record for u. When the hash step fails for both, no
request ends Created and the repository is never written. Both requests have ended
once each was resumed three times. -/
theorem race_exactly_one_created (H : Hasher) (st : Store) (u p1 p2 : String)
    (schedule : List Bool) (c : Race Store)
    (habs : ∀ r ∈ st.users, r.username ≠ u)
    (hc : c = raceRun (tableRepo true) H u p1 p2 st schedule) :
    (rowsFor c.repo u).length ≤ 1 ∧
    ¬ (endedWith c.first userRegistered ∧ endedWith c.second userRegistered) ∧
    (∀ r1 r2, ((∃ h, H.hash p1 saltRounds = .ok h) ∨ (∃ h, H.hash p2 saltRounds = .ok h)) →
      c.first = .finished r1 → c.second = .finished r2 →
      OneCreated c ∧ (rowsFor c.repo u).length = 1) ∧
    (∀ e1 e2, H.hash p1 saltRounds = .error e1 → H.hash p2 saltRounds = .error e2 →
      c.repo = st ∧ ¬ endedWith c.first userRegistered ∧
      ¬ endedWith c.second userRegistered) ∧
    (3 ≤ schedule.count true → 3 ≤ schedule.count false →
      ∃ r1 r2, c.first = .finished r1 ∧ c.second = .finished r2) := by
  have hinv : RaceInv H st u p1 p2 c := by
    rw [hc]
    exact raceInv_run H habs schedule
  have hrem := remaining_foldl (tableRepo true) H u p1 p2 schedule ⟨st, .atLookup, .atLookup⟩
  obtain ⟨repo, pcA, pcB⟩ := c
  refine ⟨?_, ?_, ?_, ?_, ?_⟩
  · rcases hinv with ⟨hr, _, _⟩ | ⟨h, _, hr, _, _⟩ | ⟨h, _, hr, _, _⟩
    · simp only at hr
      subst hr
      rw [rowsFor_absent habs]
      simp
    · simp only at hr
      subst hr
      rw [rowsFor_append_absent habs]
      simp
    · simp only at hr
      subst hr
      rw [rowsFor_append_absent habs]
      simp
  · rintro ⟨hA, hB⟩
    rcases hinv with ⟨_, hpA, _⟩ | ⟨h, _, _, _, hbB⟩ | ⟨h, _, _, _, hbA⟩
    · exact beaten_not_created (Or.inl hpA) hA
    · exact beaten_not_created hbB hB
    · exact beaten_not_created hbA hA
  · intro r1 r2 hsome hA hB
    simp only at hA hB
    subst hA hB
    rcases hinv with ⟨_, hpA, hpB⟩ | ⟨h, _, hr, hfA, hbB⟩ | ⟨h, _, hr, hfB, hbA⟩
    · obtain ⟨_, e1, he1⟩ := pending_finished hpA
      obtain ⟨_, e2, he2⟩ := pending_finished hpB
      rcases hsome with ⟨h, hh⟩ | ⟨h, hh⟩
      · rw [hh] at he1
        cases he1
      · rw [hh] at he2
        cases he2
    · simp only at hr hfA hbB
      subst hr
      refine ⟨Or.inl ⟨hfA, ?_⟩, by rw [rowsFor_append_absent habs]; rfl⟩
      rcases beaten_finished hbB with hb | hb
      · exact Or.inl (by rw [hb]; rfl)
      · exact Or.inr (by rw [hb]; rfl)
    · simp only at hr hfB hbA
      subst hr
      refine ⟨Or.inr ⟨hfB, ?_⟩, by rw [rowsFor_append_absent habs]; rfl⟩
      rcases beaten_finished hbA with hb | hb
      · exact Or.inl (by rw [hb]; rfl)
      · exact Or.inr (by rw [hb]; rfl)
  · intro e1 e2 he1 he2
    rcases hinv with ⟨hr, hpA, hpB⟩ | ⟨h, hh, _, _, _⟩ | ⟨h, hh, _, _, _⟩
    · exact ⟨hr, beaten_not_created (Or.inl hpA), beaten_not_created (Or.inl hpB)⟩
    · rw [hh] at he1
      cases he1
    · rw [hh] at he2
      cases he2
  · intro ht hf
    have hrun : (⟨repo, pcA, pcB⟩ : Race Store) =
        schedule.foldl (raceStep (tableRepo true) H u p1 p2) ⟨st, .atLookup, .atLookup⟩ := hc
    rw [← hrun] at hrem
    have hA : remaining pcA ≤ 3 - schedule.count true := hrem.1
    have hB : remaining pcB ≤ 3 - schedule.count false := hrem.2
    obtain ⟨rs1, e1⟩ := finished_of_remaining_zero pcA (by omega)
    obtain ⟨rs2, e2⟩ := finished_of_remaining_zero pcB (by omega)
    exact ⟨rs1, rs2, e1, e2⟩

theorem race_exactly_one_created_witness :
    OneCreated (raceRun (tableRepo true) strictHasher "bob" "none" "pw3" demoStore
      [true, false, true, false, false, true]) ∧
    (rowsFor (raceRun (tableRepo true) strictHasher "bob" "none" "pw3" demoStore
      [true, false, true, false, false, true]).repo "bob").length = 1 :=
  (race_exactly_one_created strictHasher demoStore "bob" "none" "pw3"
    [true, false, true, false, false, true] _ (by simp [demoStore]) rfl).2.2.1
    _ _ (Or.inr ⟨"h10:pw3", by rfl⟩) (by rfl) (by rfl)

end PernAuth
